import Mathlib

/-!
Verification of the two command-line utilities of the models-ci repository:
the lint-report formatter (`linter/lint_to_md.py`) and the build-spec reader
(`bin/find_buildfiles.py`).  The Python functions are embedded shallowly:
Python string primitives are modelled character-by-character over
`String.data`, the per-entry / per-file loops become structural recursions,
and process exits become explicit boolean flags.
-/

/-! ## Python string primitives

The two scripts only ever split on a single-character separator, test
single-character substring membership, replace single spaces by the empty
string, and strip leading spaces.  These are modelled on `String.data` so
that every definition evaluates by kernel reduction. -/

/-- Splits a character list at every occurrence of `sep`, keeping empty
pieces, exactly as Python's `str.split(sep)` does for a one-character
separator.  The result is always non-empty. -/
def splitCh (sep : Char) : List Char → List (List Char)
  | [] => [[]]
  | c :: cs =>
    let r := splitCh sep cs
    if c == sep then [] :: r
    else (c :: r.headD []) :: r.tail

/-- Python `s.split(sep)` for a one-character separator `sep`. -/
def pysplit (sep : Char) (s : String) : List String :=
  (splitCh sep s.data).map String.mk

/-- Python `c in s` for a one-character needle `c`. -/
def pyContainsChar (c : Char) (s : String) : Bool :=
  s.data.contains c

/-- Python `s.replace(" ", "")`: removes every space character. -/
def pyRemoveSpaces (s : String) : String :=
  String.mk (s.data.filter (· != ' '))

/-- Python `s.lstrip(" ")`: removes every leading space character. -/
def pyLstripSpaces (s : String) : String :=
  String.mk (s.data.dropWhile (· == ' '))

/-! ## Embedding of linter/lint_to_md.py -/

namespace LintToMd

/-- Build errors to be ignored, from the `BUILD_ERRORS` list of
`lint_to_md.py`. -/
def BUILD_ERRORS : List String :=
  ["did not have a valid build file"]

/-- The loop of `fn_to_model_dir` over the `/`-separated parts of the path.
The two booleans are the `in_models` and `in_yang` flags: a part equal to
`"models"` (resp. `"yang"`) sets its flag and is skipped via `continue`;
any other part is collected once both flags are set. -/
def fn_to_model_dir_go : List String → Bool → Bool → List String
  | [], _, _ => []
  | p :: rest, in_models, in_yang =>
    if p == "models" then fn_to_model_dir_go rest true in_yang
    else if p == "yang" then fn_to_model_dir_go rest in_models true
    else if in_yang && in_models then p :: fn_to_model_dir_go rest in_models in_yang
    else fn_to_model_dir_go rest in_models in_yang

/-- Embedding of `fn_to_model_dir(fn)`: splits the path on `/` and runs the
flag-collecting loop with both flags initially false. -/
def fn_to_model_dir (fn : String) : List String :=
  fn_to_model_dir_go (pysplit '/' fn) false false

/-- Embedding of `process_message(msg, suppress_warnings, html)`.  In the
source the two keyword arguments default to `suppress_warnings=True` and
`html=False`; here they are positional.  Returns `none` for the Python
`return None` of a suppressed warning, otherwise `some` of the rendered
line.  Note that the source initialises `codestart, codeend` to backticks
and, in HTML mode, reassigns `codestart = "<pre>"` but then assigns
`"</pre>"` to the misspelled variable `codeeng`, which is never read, so
`codeend` stays a backtick in every mode; the embedding reproduces this. -/
def process_message (msg : String) (suppress_warnings : Bool) (html : Bool) : Option String :=
  let message_parts := pysplit ':' msg
  if message_parts.length < 3 then some msg
  else
    let model := fn_to_model_dir (message_parts.getD 0 "")
    let p1 := message_parts.getD 1 ""
    let lr := if pyContainsChar '(' p1
              then (pyRemoveSpaces ((pysplit '(' p1).getD 0 ""), 4)
              else (p1, 3)
    let linenum := lr.1
    let remaining_start := lr.2
    let remaining_message := (message_parts.drop remaining_start).map
      (fun p => if p == "" then ":" else p)
    let errorlevel := message_parts.getD 2 ""
    if suppress_warnings && (pyRemoveSpaces errorlevel == "warning") then none
    else
      let codestart := if html then "<pre>" else "`"
      let codeend := "`"
      some (String.intercalate "/" model ++ " (" ++ linenum ++ "): " ++ codestart
            ++ pyLstripSpaces (String.join remaining_message) ++ codeend)

/-- One test outcome of a Test Suite Result: a `status` string and the list
of raw diagnostic `messages` (read only when the test did not pass). -/
structure TestOutcome where
  status : String
  messages : List String
deriving DecidableEq

/-- One File Result of the lint document: either a Build-Failure Result
(the JSON object has a top-level `status` field and a `message`) or a Test
Suite Result (a mapping from test name to outcome, kept here as an
association list in iteration order). -/
inductive FileResult
  | buildFailure (status : String) (message : String)
  | testSuite (tests : List (String × TestOutcome))
deriving DecidableEq

/-- Rendering of one named test inside `process_output`: the lines appended
to `test_out` for this test, paired with whether the test sets
`any_failed`.  Mirrors the body of the inner `for testname, test` loop,
including the `h = (mode == "html")` flag passed to `process_message`. -/
def render_test (mode : String) (testname : String) (test : TestOutcome) :
    List String × Bool :=
  if test.status != "pass" then
    let msg_lines := test.messages.filterMap (fun message =>
      (process_message message true (mode == "html")).map (fun m =>
        if mode == "markdown" then "       * " ++ m
        else "   <li>" ++ m ++ "</li>"))
    if mode == "markdown" then
      (("  * :no_entry: **" ++ testname ++ "**:") :: msg_lines, true)
    else
      (["<details>", "  <summary>:no_entry: " ++ testname ++ "</summary>", "  <ul>"]
        ++ msg_lines ++ ["  </ul>", "</details>"], true)
  else
    if mode == "markdown" then
      (["  * :white_check_mark: **" ++ testname ++ "**"], false)
    else
      (["<details>", "  <summary>:white_check_mark: " ++ testname ++ "</summary>",
        "  Tests Passed.", "</details>"], false)

/-- Folds `render_test` over the tests of one file, concatenating the
`test_out` lines and or-ing the `any_failed` flags. -/
def render_tests (mode : String) : List (String × TestOutcome) → List String × Bool
  | [] => ([], false)
  | (testname, test) :: rest =>
    let r := render_test mode testname test
    let rr := render_tests mode rest
    (r.1 ++ rr.1, r.2 || rr.2)

/-- Rendering of one file entry of the lint document inside
`process_output`: the lines appended to `output` for this file, paired with
the file's contribution to `overall_failed`.  A Build-Failure Result always
contributes failure, but its lines are emitted only when the message is not
in `BUILD_ERRORS`; a Test Suite Result emits a header (and in HTML mode a
closing tag) around its `test_out` lines when those are non-empty, and
contributes failure exactly when `any_failed` was set then. -/
def render_file (mode : String) (fn : String) (result : FileResult) :
    List String × Bool :=
  let testdir := String.intercalate "/" (fn_to_model_dir fn)
  match result with
  | .buildFailure _ message =>
    ((if BUILD_ERRORS.contains message then []
      else if mode == "markdown" then
        ["* :no_entry: **" ++ testdir ++ "**: " ++ message]
      else
        ["<details>", "  <summary>:no_entry: " ++ testdir ++ "</summary>",
         "  " ++ message, "</details>"]), true)
  | .testSuite tests =>
    let r := render_tests mode tests
    if r.1.isEmpty then ([], false)
    else
      let simg := if r.2 then ":no_entry:" else ":white_check_mark:"
      ((if mode == "markdown" then ["* " ++ simg ++ " **" ++ testdir ++ "**"]
        else ["<details>", "  <summary>" ++ simg ++ " " ++ testdir ++ "</summary>"])
        ++ r.1
        ++ (if mode == "html" then ["</details>"] else []), r.2)

/-- Embedding of `process_output(mode, fh)` after the JSON document has been
read and found to contain a `tests` collection: the document is the list of
`(file path, File Result)` pairs in iteration order.  Returns the list of
output lines (later joined with newlines and printed) together with the
`overall_failed` flag that the function returns. -/
def process_output (mode : String) : List (String × FileResult) → List String × Bool
  | [] => ([], false)
  | (fn, result) :: rest =>
    let r := render_file mode fn result
    let rr := process_output mode rest
    (r.1 ++ rr.1, r.2 || rr.2)

/-- Embedding of the exit protocol of the `__main__` block: the process
exits with code 1 when `process_output` returns a truthy flag, and
otherwise falls off the end of the script, exiting 0. -/
def main_exit_code (mode : String) (doc : List (String × FileResult)) : Nat :=
  if (process_output mode doc).2 then 1 else 0

/-- True when a File Result is the Build-Failure variant. -/
def FileResult.isBuildFailure : FileResult → Bool
  | .buildFailure _ _ => true
  | .testSuite _ => false

/-- The per-file failure condition of `process_output`: a Build-Failure
Result always fails, a Test Suite Result fails when some test's status is
not `"pass"`. -/
def file_failed : FileResult → Bool
  | .buildFailure _ _ => true
  | .testSuite tests => tests.any (fun t => t.2.status != "pass")

/-- Success of one File Result in the sense of the spec: it is not a
Build-Failure Result and every one of its tests has status `"pass"`. -/
def file_passes : FileResult → Bool
  | .buildFailure _ _ => false
  | .testSuite tests => tests.all (fun t => t.2.status == "pass")

/-- The spec-side success condition for a whole document: no build-failure
entry and every test of every file passes. -/
def doc_all_pass (doc : List (String × FileResult)) : Bool :=
  doc.all (fun e => file_passes e.2)

/-- True for path segments that are neither of the two anchor segments
`"models"` and `"yang"`. -/
def not_anchor (p : String) : Bool :=
  p != "models" && p != "yang"

/-- Restatement of the amended derived-model-path claim in closed form: when
both anchor segments occur in the `/`-split path (in either order), the
result consists of the segments strictly after the first point at which both
have occurred — that is, after position `max (indexOf "models") (indexOf
"yang")` — with any further anchor segments removed; when the anchors do not
both occur, the result is empty. -/
def model_dir_spec (fn : String) : List String :=
  let parts := pysplit '/' fn
  if "models" ∈ parts ∧ "yang" ∈ parts then
    (parts.drop (max (parts.indexOf "models") (parts.indexOf "yang") + 1)).filter not_anchor
  else []

end LintToMd

/-! ## Embedding of bin/find_buildfiles.py -/

namespace FindBuildfiles

/-- One build entry of the specification document, as the loop of `main`
reads it: the optional `run-ci` boolean, the optional `name` string and the
optional `build` file list. -/
structure Buildspec where
  run_ci : Option Bool
  name : Option String
  build : Option (List String)
deriving DecidableEq

/-- Embedding of the per-entry loop of `main` over the parsed specification
document.  Returns the lines printed to standard output, in order, paired
with a flag that is true exactly when the loop hit `sys.exit(1)` (an entry
with `run-ci` true or defaulted and no `build` key, reported on stderr);
processing stops there, losing the malformed entry and all later ones. -/
def main_loop : List Buildspec → List String × Bool
  | [] => ([], false)
  | b :: rest =>
    let runci := b.run_ci.getD true
    let name := b.name.getD "undefined"
    if !runci then
      let r := main_loop rest
      ("0!" :: r.1, r.2)
    else
      match b.build with
      | none => ([], true)
      | some bfiles =>
        let r := main_loop rest
        (((if runci then "1" else "0") ++ "!" ++ String.intercalate "," bfiles
          ++ "!" ++ name) :: r.1, r.2)

end FindBuildfiles

/-! ## Theorems about lint_to_md.py -/

namespace LintToMd

/-- C1 (counterexample): the diagnostic message
`"models/yang/a/b/file.yang:12:error:bad pattern"` does not render with
model-path field `a/b`: `fn_to_model_dir` also keeps the trailing file-name
segment, so the rendered string is not `"a/b (12): `bad pattern`"`. -/
theorem example_message_rendering_counterexample :
    process_message "models/yang/a/b/file.yang:12:error:bad pattern" true false
      ≠ some "a/b (12): `bad pattern`" := by decide

/-- C1 (amended): for the diagnostic message
`"models/yang/a/b/file.yang:12:error:bad pattern"`, `process_message` with
warning suppression at its default and Markdown quoting returns the string
whose model-path field is `a/b/file.yang` (the segments after the
`models`/`yang` anchors, including the file name), whose line-number field
is `12`, and whose code-quoted text is `bad pattern`: exactly
`"a/b/file.yang (12): `bad pattern`"`. -/
theorem example_message_rendering :
    process_message "models/yang/a/b/file.yang:12:error:bad pattern" true false
      = some "a/b/file.yang (12): `bad pattern`" := rfl

/-- C3 (evaluation at the failing input): in HTML mode the rendered message
opens its quoted text with `<pre>` but closes it with a backtick, because
the source assigns the closing tag `"</pre>"` to the misspelled variable
`codeeng` and the real `codeend` is never updated; so the claimed matched
`<pre>`/`</pre>` pair is not produced. -/
theorem html_mode_unmatched_quote_eval :
    process_message "models/yang/a/b/file.yang:12:error:bad pattern" true true
      = some "a/b/file.yang (12): <pre>bad pattern`" := rfl

/-- C9: a structured diagnostic message (at least 3 colon-delimited fields)
whose severity field is exactly `"warning"` is suppressed (returns `none`)
by `process_message` when suppression is enabled, and the same message is
rendered to `some` string when suppression is disabled, in either quoting
mode. -/
theorem warning_suppressed_by_default (msg : String) (html : Bool)
    (h1 : 3 ≤ (pysplit ':' msg).length)
    (h2 : (pysplit ':' msg).getD 2 "" = "warning") :
    process_message msg true html = none ∧
    ∃ s, process_message msg false html = some s := by
  have hlt : ¬((pysplit ':' msg).length < 3) := by omega
  have hw : (pyRemoveSpaces "warning" == "warning") = true := rfl
  constructor
  · simp only [process_message]
    rw [if_neg hlt, h2]
    simp [hw]
  · apply Option.ne_none_iff_exists'.mp
    simp only [process_message]
    rw [if_neg hlt]
    simp

/-- Witness for C9 at the concrete message
`"models/yang/acl/openconfig-acl.yang:5:warning:deprecated leaf"`. -/
theorem warning_suppressed_by_default_witness :
    process_message "models/yang/acl/openconfig-acl.yang:5:warning:deprecated leaf" true false = none ∧
    ∃ s, process_message "models/yang/acl/openconfig-acl.yang:5:warning:deprecated leaf" false false = some s :=
  warning_suppressed_by_default "models/yang/acl/openconfig-acl.yang:5:warning:deprecated leaf" false
    (by decide) rfl

end LintToMd

/-! ## Theorems about find_buildfiles.py -/

namespace FindBuildfiles

/-- C7: a build entry with `run-ci` explicitly false emits exactly the line
`"0!"` — the two-field short form whose single `!` leaves one trailing empty
field — with no file list and no name, regardless of the entry's `build`
and `name` keys, and processing continues with the remaining entries. -/
theorem runci_false_emits_short_form (b : Buildspec) (rest : List Buildspec)
    (h : b.run_ci = some false) :
    main_loop (b :: rest) = ("0!" :: (main_loop rest).1, (main_loop rest).2) ∧
    pysplit '!' "0!" = ["0", ""] := by
  constructor
  · simp [main_loop, h]
  · rfl

/-- Witness for C7 at a concrete disabled entry carrying both a `build`
list and a `name`. -/
theorem runci_false_emits_short_form_witness :
    main_loop ((⟨some false, some "openconfig-acl", some ["openconfig-acl.yang"]⟩ : Buildspec) :: [])
      = ("0!" :: (main_loop []).1, (main_loop []).2) ∧
    pysplit '!' "0!" = ["0", ""] :=
  runci_false_emits_short_form ⟨some false, some "openconfig-acl", some ["openconfig-acl.yang"]⟩ [] rfl

/-- C8: a build entry with `run-ci` omitted or explicitly true and a
non-empty `build` list emits exactly `"1!<f1,...,fn>!<name>"`, with the
files comma-joined in input order and `<name>` the entry's `name` value or
the placeholder `"undefined"` when `name` is absent. -/
theorem runci_true_emits_files_and_name (b : Buildspec) (rest : List Buildspec)
    (bfiles : List String) (h1 : b.run_ci = none ∨ b.run_ci = some true)
    (h2 : b.build = some bfiles) (_h3 : bfiles ≠ []) :
    main_loop (b :: rest)
      = (("1!" ++ String.intercalate "," bfiles ++ "!" ++ b.name.getD "undefined")
          :: (main_loop rest).1, (main_loop rest).2) := by
  have hr : b.run_ci.getD true = true := by rcases h1 with h | h <;> simp [h]
  simp [main_loop, hr, h2]

/-- Witness for C8 at a concrete entry with two build files and no name. -/
theorem runci_true_emits_files_and_name_witness :
    main_loop ((⟨none, none, some ["openconfig-acl.yang", "openconfig-acl-types.yang"]⟩ : Buildspec) :: [])
      = (("1!" ++ String.intercalate "," ["openconfig-acl.yang", "openconfig-acl-types.yang"]
          ++ "!" ++ (⟨none, none, some ["openconfig-acl.yang", "openconfig-acl-types.yang"]⟩ : Buildspec).name.getD "undefined")
          :: (main_loop []).1, (main_loop []).2) :=
  runci_true_emits_files_and_name ⟨none, none, some ["openconfig-acl.yang", "openconfig-acl-types.yang"]⟩ []
    ["openconfig-acl.yang", "openconfig-acl-types.yang"] (Or.inl rfl) rfl (by simp)

end FindBuildfiles

namespace LintToMd

/-- C2 (counterexample): for a document whose only entry is a Build-Failure
Result carrying the known ignorable message, `process_output` sets the
overall-failed flag but emits no output line at all — the failure block is
suppressed, contradicting the claim that it is still emitted. -/
theorem ignorable_build_error_counterexample :
    process_output "markdown"
      [("openconfig-acl", FileResult.buildFailure "fail" "did not have a valid build file")]
      = ([], true) := rfl

/-- C2 (amended): for every lint document containing a Build-Failure Result
whose message belongs to the known ignorable `BUILD_ERRORS` class,
`process_output` sets the overall-failed flag to true but emits no output
lines for that file: the rendered report is exactly the report of the
document without that entry. -/
theorem ignorable_build_error_suppressed (mode : String)
    (pre post : List (String × FileResult)) (fn st m : String)
    (h : BUILD_ERRORS.contains m = true) :
    process_output mode (pre ++ (fn, FileResult.buildFailure st m) :: post)
      = ((process_output mode (pre ++ post)).1, true) := by
  have hm : m ∈ BUILD_ERRORS := by simpa using h
  induction pre with
  | nil => simp [process_output, render_file, hm]
  | cons e rest ih =>
    obtain ⟨fn2, r2⟩ := e
    simp [process_output, ih]

/-- Witness for C2 at a one-entry document carrying the ignorable
message. -/
theorem ignorable_build_error_suppressed_witness :
    process_output "html"
      ([] ++ ("openconfig-bgp", FileResult.buildFailure "fail" "did not have a valid build file") :: [])
      = ((process_output "html" ([] ++ [])).1, true) :=
  ignorable_build_error_suppressed "html" [] [] "openconfig-bgp" "fail"
    "did not have a valid build file" rfl

end LintToMd

namespace FindBuildfiles

/-- C6: when the specification document is a list of entries whose prefix
`pre` is free of fatal entries and whose next entry `b` has `run-ci` true
(explicit or defaulted) but no `build` key, the reader stops with a
non-zero exit (the error flag): the emitted lines are exactly those of the
earlier entries, with no line for `b` and none for any subsequent entry,
and the run over `pre` alone would not have errored. -/
theorem missing_build_stanza_fatal (pre post : List Buildspec) (b : Buildspec)
    (hpre : ∀ e ∈ pre, ¬(e.run_ci.getD true = true ∧ e.build = none))
    (h1 : b.run_ci.getD true = true) (h2 : b.build = none) :
    main_loop (pre ++ b :: post) = ((main_loop pre).1, true) ∧
    (main_loop pre).2 = false := by
  induction pre with
  | nil =>
    refine ⟨?_, rfl⟩
    simp [main_loop, h1, h2]
  | cons x rest ih =>
    have hx := hpre x (List.mem_cons_self x rest)
    have hrest : ∀ e ∈ rest, ¬(e.run_ci.getD true = true ∧ e.build = none) :=
      fun e he => hpre e (List.mem_cons_of_mem x he)
    obtain ⟨ih1, ih2⟩ := ih hrest
    by_cases hx1 : x.run_ci.getD true = true
    · have hx2 : x.build ≠ none := fun hh => hx ⟨hx1, hh⟩
      obtain ⟨bf, hbf⟩ := Option.ne_none_iff_exists'.mp hx2
      constructor <;> simp [main_loop, hx1, hbf, ih1, ih2]
    · have hx1' : x.run_ci.getD true = false := by
        cases hq : x.run_ci.getD true
        · rfl
        · exact absurd hq hx1
      constructor <;> simp [main_loop, hx1', ih1, ih2]

/-- Witness for C6: one valid disabled entry, then an enabled entry with no
build list, then a further valid entry whose line is lost. -/
theorem missing_build_stanza_fatal_witness :
    main_loop ([⟨some false, none, none⟩]
        ++ (⟨none, some "bad-entry", none⟩ : Buildspec) :: [⟨none, none, some ["x.yang"]⟩])
      = ((main_loop [⟨some false, none, none⟩]).1, true) ∧
    (main_loop [⟨some false, none, none⟩]).2 = false :=
  missing_build_stanza_fatal [⟨some false, none, none⟩] [⟨none, none, some ["x.yang"]⟩]
    ⟨none, some "bad-entry", none⟩ (by decide) rfl rfl

end FindBuildfiles

namespace LintToMd

/-- The collecting loop never returns an anchor segment: a part equal to
`"models"` or `"yang"` is always consumed by its flag-setting branch. -/
theorem fn_to_model_dir_go_all (l : List String) (im iy : Bool) :
    (fn_to_model_dir_go l im iy).all (fun p => p != "models" && p != "yang") = true := by
  induction l generalizing im iy with
  | nil => rfl
  | cons p rest ih =>
    by_cases h1 : p = "models"
    · simp [fn_to_model_dir_go, h1, ih]
    · by_cases h2 : p = "yang"
      · simp [fn_to_model_dir_go, h1, h2, ih]
      · cases im <;> cases iy <;> simp [fn_to_model_dir_go, h1, h2, ih]

/-- C10: the model path derived by `fn_to_model_dir` never contains a
segment literally equal to `"models"` or `"yang"`, even after both anchors
have been seen; in particular `"models/yang/a/yang/b"` derives to the
segments `["a", "b"]`. -/
theorem model_dir_never_contains_anchor (fn : String) :
    (fn_to_model_dir fn).all (fun p => p != "models" && p != "yang") = true ∧
    fn_to_model_dir "models/yang/a/yang/b" = ["a", "b"] :=
  ⟨fn_to_model_dir_go_all (pysplit '/' fn) false false, rfl⟩

/-- The lines rendered for a single test are never empty: a passing test
emits its checkmark line, a failing one its header. -/
theorem render_test_fst_ne_nil (mode testname : String) (test : TestOutcome) :
    (render_test mode testname test).1 ≠ [] := by
  by_cases h : test.status = "pass" <;> by_cases hm : mode = "markdown" <;>
    simp [render_test, h, hm]

/-- A test contributes to `any_failed` exactly when its status is not
`"pass"`. -/
theorem render_test_snd (mode testname : String) (test : TestOutcome) :
    (render_test mode testname test).2 = (test.status != "pass") := by
  by_cases h : test.status = "pass" <;> by_cases hm : mode = "markdown" <;>
    simp [render_test, h, hm]

/-- The `test_out` lines of a non-empty test list are non-empty. -/
theorem render_tests_fst_ne_nil (mode testname : String) (test : TestOutcome)
    (rest : List (String × TestOutcome)) :
    (render_tests mode ((testname, test) :: rest)).1 ≠ [] := by
  simp [render_tests, render_test_fst_ne_nil]

/-- The `any_failed` flag of a test list is the disjunction of the per-test
failure conditions. -/
theorem render_tests_snd (mode : String) (tests : List (String × TestOutcome)) :
    (render_tests mode tests).2 = tests.any (fun t => t.2.status != "pass") := by
  induction tests with
  | nil => rfl
  | cons t rest ih =>
    obtain ⟨tn, tt⟩ := t
    simp [render_tests, render_test_snd, ih]

/-- The failure contribution of one file entry is `file_failed`. -/
theorem render_file_snd (mode fn : String) (result : FileResult) :
    (render_file mode fn result).2 = file_failed result := by
  cases result with
  | buildFailure st m => rfl
  | testSuite tests =>
    cases tests with
    | nil => rfl
    | cons t rest =>
      obtain ⟨tn, tt⟩ := t
      have h : (render_tests mode ((tn, tt) :: rest)).1 ≠ [] :=
        render_tests_fst_ne_nil mode tn tt rest
      simp only [render_file]
      rw [if_neg (by simpa using h)]
      simp [render_tests_snd, file_failed]

/-- The `overall_failed` flag of `process_output` is the disjunction of
the per-file failure conditions, independently of the rendering mode. -/
theorem process_output_snd (mode : String) (doc : List (String × FileResult)) :
    (process_output mode doc).2 = doc.any (fun e => file_failed e.2) := by
  induction doc with
  | nil => rfl
  | cons e rest ih =>
    obtain ⟨fn, r⟩ := e
    simp [process_output, render_file_snd, ih]

/-- A test list has no failing test exactly when all its tests pass. -/
theorem any_ne_pass_false_iff (tests : List (String × TestOutcome)) :
    (tests.any (fun t => t.2.status != "pass") = false) ↔
    (tests.all (fun t => t.2.status == "pass") = true) := by
  induction tests with
  | nil => simp
  | cons t rest ih => simp [List.any_cons, List.all_cons, ih]

/-- A file does not contribute failure exactly when it passes in the sense
of the spec. -/
theorem file_failed_false_iff (r : FileResult) :
    (file_failed r = false) ↔ (file_passes r = true) := by
  cases r with
  | buildFailure st m => simp [file_failed, file_passes]
  | testSuite tests =>
    simp only [file_failed, file_passes]
    exact any_ne_pass_false_iff tests

/-- The overall flag is false exactly when the whole document passes. -/
theorem process_output_false_iff (mode : String) (doc : List (String × FileResult)) :
    ((process_output mode doc).2 = false) ↔ (doc_all_pass doc = true) := by
  rw [process_output_snd]
  unfold doc_all_pass
  induction doc with
  | nil => simp
  | cons e rest ih =>
    simp only [List.any_cons, List.all_cons, Bool.or_eq_false_iff, Bool.and_eq_true]
    rw [← ih]
    constructor
    · rintro ⟨ha, hb⟩
      exact ⟨(file_failed_false_iff e.2).mp ha, hb⟩
    · rintro ⟨ha, hb⟩
      exact ⟨(file_failed_false_iff e.2).mpr ha, hb⟩

/-- C5: for every well-formed lint document, the overall-failed flag of
`process_output` is false exactly when every test of every file passes and
no build-failure entry is present (so it is true exactly when some test
fails or a build failure is present); the flag is the same in the markdown
and html rendering modes; and the process exit code is 1 exactly when the
flag is true. -/
theorem overall_failure_semantics (mode : String) (doc : List (String × FileResult)) :
    ((process_output mode doc).2 = false ↔ doc_all_pass doc = true) ∧
    ((process_output mode doc).2 = true ↔ doc_all_pass doc = false) ∧
    (process_output "markdown" doc).2 = (process_output "html" doc).2 ∧
    (main_exit_code mode doc = 1 ↔ (process_output mode doc).2 = true) := by
  refine ⟨process_output_false_iff mode doc, ?_, ?_, ?_⟩
  · have h := process_output_false_iff mode doc
    constructor
    · intro hf
      cases hq : doc_all_pass doc
      · rfl
      · rw [h.mpr hq] at hf
        simp at hf
    · intro hp
      cases hq : (process_output mode doc).2
      · rw [h.mp hq] at hp
        simp at hp
      · rfl
  · rw [process_output_snd, process_output_snd]
  · cases h : (process_output mode doc).2 <;> simp [main_exit_code, h]

end LintToMd

namespace LintToMd

/-- With both flags already set, the loop keeps exactly the non-anchor
segments. -/
theorem fn_to_model_dir_go_tt (l : List String) :
    fn_to_model_dir_go l true true = l.filter not_anchor := by
  induction l with
  | nil => rfl
  | cons p rest ih =>
    by_cases h1 : p = "models"
    · simp [fn_to_model_dir_go, List.filter_cons, not_anchor, h1, ih]
    · by_cases h2 : p = "yang"
      · simp [fn_to_model_dir_go, List.filter_cons, not_anchor, h1, h2, ih]
      · simp [fn_to_model_dir_go, List.filter_cons, not_anchor, h1, h2, ih]

/-- A non-yang head leaves the models-seen, yang-unseen state unchanged. -/
theorem fn_to_model_dir_go_tf_cons (p : String) (rest : List String) (h : p ≠ "yang") :
    fn_to_model_dir_go (p :: rest) true false = fn_to_model_dir_go rest true false := by
  by_cases h1 : p = "models" <;> simp [fn_to_model_dir_go, h1, h]

/-- In the models-seen, yang-unseen state the loop waits for the first
`"yang"` and then keeps the non-anchor segments after it. -/
theorem fn_to_model_dir_go_tf (l : List String) :
    fn_to_model_dir_go l true false =
      if "yang" ∈ l then (l.drop (l.indexOf "yang" + 1)).filter not_anchor
      else [] := by
  induction l with
  | nil => simp [fn_to_model_dir_go]
  | cons p rest ih =>
    by_cases h2 : p = "yang"
    · subst h2
      simp [fn_to_model_dir_go, fn_to_model_dir_go_tt, List.indexOf_cons_self]
    · have h2' : ¬("yang" = p) := fun hh => h2 hh.symm
      rw [fn_to_model_dir_go_tf_cons p rest h2, ih]
      have hidx : List.indexOf "yang" (p :: rest) = List.indexOf "yang" rest + 1 :=
        List.indexOf_cons_ne rest h2
      by_cases hm : "yang" ∈ rest
      · simp [List.mem_cons, hm, h2', hidx, List.drop_succ_cons]
      · simp [List.mem_cons, hm, h2']

/-- A non-models head leaves the yang-seen, models-unseen state
unchanged. -/
theorem fn_to_model_dir_go_ft_cons (p : String) (rest : List String) (h : p ≠ "models") :
    fn_to_model_dir_go (p :: rest) false true = fn_to_model_dir_go rest false true := by
  by_cases h2 : p = "yang" <;> simp [fn_to_model_dir_go, h, h2]

/-- In the yang-seen, models-unseen state the loop waits for the first
`"models"` and then keeps the non-anchor segments after it. -/
theorem fn_to_model_dir_go_ft (l : List String) :
    fn_to_model_dir_go l false true =
      if "models" ∈ l then (l.drop (l.indexOf "models" + 1)).filter not_anchor
      else [] := by
  induction l with
  | nil => simp [fn_to_model_dir_go]
  | cons p rest ih =>
    by_cases h1 : p = "models"
    · subst h1
      simp [fn_to_model_dir_go, fn_to_model_dir_go_tt, List.indexOf_cons_self]
    · have h1' : ¬("models" = p) := fun hh => h1 hh.symm
      rw [fn_to_model_dir_go_ft_cons p rest h1, ih]
      have hidx : List.indexOf "models" (p :: rest) = List.indexOf "models" rest + 1 :=
        List.indexOf_cons_ne rest h1
      by_cases hm : "models" ∈ rest
      · simp [List.mem_cons, hm, h1', hidx, List.drop_succ_cons]
      · simp [List.mem_cons, hm, h1']

/-- Closed form of the collecting loop from the all-unseen start state: the
non-anchor segments strictly after the position at which both anchors have
been seen, whichever of the two came second. -/
theorem fn_to_model_dir_go_ff (l : List String) :
    fn_to_model_dir_go l false false =
      if "models" ∈ l ∧ "yang" ∈ l then
        (l.drop (max (l.indexOf "models") (l.indexOf "yang") + 1)).filter not_anchor
      else [] := by
  induction l with
  | nil => simp [fn_to_model_dir_go]
  | cons p rest ih =>
    by_cases h1 : p = "models"
    · subst h1
      have hstep : fn_to_model_dir_go ("models" :: rest) false false =
          fn_to_model_dir_go rest true false := by
        simp [fn_to_model_dir_go]
      rw [hstep, fn_to_model_dir_go_tf]
      have hidx : List.indexOf "yang" ("models" :: rest) = List.indexOf "yang" rest + 1 :=
        List.indexOf_cons_ne rest (by decide)
      by_cases hy : "yang" ∈ rest
      · simp [List.mem_cons, hy, hidx, List.indexOf_cons_self, List.drop_succ_cons,
              Nat.max_eq_right (Nat.zero_le _)]
      · simp [List.mem_cons, hy]
    · by_cases h2 : p = "yang"
      · subst h2
        have hstep : fn_to_model_dir_go ("yang" :: rest) false false =
            fn_to_model_dir_go rest false true := by
          simp [fn_to_model_dir_go]
        rw [hstep, fn_to_model_dir_go_ft]
        have hidx : List.indexOf "models" ("yang" :: rest) = List.indexOf "models" rest + 1 :=
          List.indexOf_cons_ne rest (by decide)
        by_cases hm : "models" ∈ rest
        · simp [List.mem_cons, hm, hidx, List.indexOf_cons_self, List.drop_succ_cons,
                Nat.max_eq_left (Nat.zero_le _)]
        · simp [List.mem_cons, hm]
      · have hstep : fn_to_model_dir_go (p :: rest) false false =
            fn_to_model_dir_go rest false false := by
          simp [fn_to_model_dir_go, h1, h2]
        rw [hstep, ih]
        have h1' : ¬("models" = p) := fun hh => h1 hh.symm
        have h2' : ¬("yang" = p) := fun hh => h2 hh.symm
        have hidx1 : List.indexOf "models" (p :: rest) = List.indexOf "models" rest + 1 :=
          List.indexOf_cons_ne rest h1
        have hidx2 : List.indexOf "yang" (p :: rest) = List.indexOf "yang" rest + 1 :=
          List.indexOf_cons_ne rest h2
        have hmax : max (List.indexOf "models" rest + 1) (List.indexOf "yang" rest + 1)
            = max (List.indexOf "models" rest) (List.indexOf "yang" rest) + 1 :=
          max_add_add_right _ _ _
        by_cases hm : "models" ∈ rest <;> by_cases hy : "yang" ∈ rest <;>
          simp [List.mem_cons, hm, hy, h1', h2', hidx1, hidx2, hmax, List.drop_succ_cons]

/-- C4 (counterexample): the two anchor segments do not have to appear in
the order `models` before `yang` for segments to be collected: for the path
`"yang/models/a"`, where `models` never precedes `yang`, the claim says the
derived model path is empty, yet `fn_to_model_dir` returns `["a"]`. -/
theorem anchor_order_counterexample :
    fn_to_model_dir "yang/models/a" = ["a"] ∧ (["a"] : List String) ≠ [] :=
  ⟨rfl, by decide⟩

/-- C4 (amended): for every file path, `fn_to_model_dir` returns exactly the
path segments strictly after the first point at which both literal segments
`"models"` and `"yang"` have appeared — in either order, not necessarily
adjacent — with any later occurrence of the two anchor segments removed;
for every path in which `"models"` and `"yang"` do not both appear, the
derived model path is empty.  Stated as equality with the closed-form
`model_dir_spec`. -/
theorem fn_to_model_dir_characterisation (fn : String) :
    fn_to_model_dir fn = model_dir_spec fn := by
  have h := fn_to_model_dir_go_ff (pysplit '/' fn)
  simpa [fn_to_model_dir, model_dir_spec] using h

end LintToMd
